import Mathlib

/-
Verification of the solar-simulator engine (src/src/App.js, core variant:
the schedule-driven engine with the unclipped Gaussian solar model and the
full-day 0..24 integration loop).

Numbers: the engine is embedded over ℚ, the exact-real semantics the design
documents prescribe for the arithmetic ("all arithmetic is on real numbers").
JavaScript Math.exp is an analytic function with no bearing on the control
flow, so the development is parameterised by an arbitrary function
exp : ℚ → ℚ; every theorem quantifies over it.  Where a claim is genuinely
about IEEE-754 double behaviour (the time-grid accumulation), a separate
exact model of double rounding is used (roundDouble below).
-/

set_option maxRecDepth 4000

namespace SolarSim

/-! ### Time & schedule utilities (App.js lines 388-456) -/

/-- Splits a character list at every occurrence of the separator, mirroring
JavaScript timeStr.split. -/
def splitOnChar (c : Char) : List Char → List (List Char)
  | [] => [[]]
  | x :: xs =>
    let r := splitOnChar c xs
    if x = c then [] :: r
    else
      match r with
      | y :: ys => (x :: y) :: ys
      | [] => [[x]]

/-- JavaScript Number(...) on the digit strings produced by split: digits
accumulate in base 10, the empty string is 0, a non-digit character makes the
value NaN (modelled as none). -/
def natOfDigits (cs : List Char) : Option ℕ :=
  cs.foldl (fun acc ch => acc.bind (fun n => if ch.isDigit then some (n * 10 + (ch.toNat - 48)) else none)) (some 0)

/-- timeToDecimal (App.js 388-392): "HH:MM" to decimal hours; an empty string
is the unset sentinel (null, modelled as none). -/
def timeToDecimal (timeStr : String) : Option ℚ :=
  if timeStr = "" then none
  else
    match (splitOnChar ':' timeStr.data).map natOfDigits with
    | [some hours, some minutes] => some ((hours : ℚ) + (minutes : ℚ) / 60)
    | _ => none

/-- A schedule: two on/off windows given as "HH:MM" strings, "" meaning unset
(App.js 380-385). -/
structure Schedule where
  on1 : String
  off1 : String
  on2 : String
  off2 : String
deriving DecidableEq

def DEFAULT_SCHEDULE : Schedule := ⟨"", "", "", ""⟩

/-- One window of isApplianceRunning (App.js 425-437 and 440-452): the window
counts only when both endpoint strings are truthy (non-empty); a window whose
off time is before its on time spans midnight. -/
def slotMatches (currentTime : ℚ) (onS offS : String) : Bool :=
  if onS = "" || offS = "" then false
  else
    match timeToDecimal onS, timeToDecimal offS with
    | some onT, some offT =>
      if offT < onT then decide (currentTime ≥ onT) || decide (currentTime ≤ offT)
      else decide (currentTime ≥ onT) && decide (currentTime ≤ offT)
    | _, _ => false

/-- isApplianceRunning (App.js 395-456).  The console.log calls of the source
are diagnostics with no effect on the result and are not modelled. -/
def isApplianceRunning (timeOfDay : ℚ) (schedule : Schedule) : Bool :=
  if (schedule.on1 = "" || schedule.off1 = "") && (schedule.on2 = "" || schedule.off2 = "") then
    false
  else
    slotMatches timeOfDay schedule.on1 schedule.off1
      || slotMatches timeOfDay schedule.on2 schedule.off2

/-! ### Static catalog and load model (App.js 371-377, 483-488) -/

def FRIDGE_LOAD : ℚ := 0.1

inductive ApplianceName where
  | TV
  | Oven
  | Aircon
deriving DecidableEq

def APPLIANCE_LOADS : ApplianceName → ℚ
  | .TV => 0.1
  | .Oven => 2.0
  | .Aircon => 1.5

structure ApplianceConfig where
  enabled : Bool
  schedule : Schedule

def Appliances : Type := ApplianceName → ApplianceConfig

/-- House load at time t (App.js 483-488): the fridge plus every enabled
appliance whose schedule is active, folded in the object-entry order
TV, Oven, Aircon. -/
def currentLoadAt (t : ℚ) (ap : Appliances) : ℚ :=
  [ApplianceName.TV, ApplianceName.Oven, ApplianceName.Aircon].foldl
    (fun load name =>
      if (ap name).enabled && isApplianceRunning t (ap name).schedule then
        load + APPLIANCE_LOADS name
      else load)
    FRIDGE_LOAD

/-! ### Solar model (App.js 365-369, 458-462): unclipped Gaussian bell -/

def PEAK_TIME : ℚ := 12.5

def SIGMA : ℚ := 2.5

/-- solarProduction (App.js 458-462), parameterised by the exponential. -/
def solarProduction (exp : ℚ → ℚ) (t inverterCapacity : ℚ) : ℚ :=
  inverterCapacity * exp (-((t - PEAK_TIME) ^ 2) / (2 * SIGMA ^ 2))

/-! ### Day simulator (App.js 464-554) -/

def dt : ℚ := 0.1

/-- The mutable loop state of simulateDay: battery energy, the three
accumulators, and the five recorded series. -/
structure SimState where
  batteryEnergy : ℚ
  gridImport : ℚ
  gridExport : ℚ
  consumption : ℚ
  times : List ℚ
  socArr : List ℚ
  gridImportArr : List ℚ
  consumptionArr : List ℚ
  solarArr : List ℚ

/-- One iteration of the integration loop (App.js 481-525). -/
def stepSim (exp : ℚ → ℚ) (inverterCapacity batteryCapacity : ℚ) (ap : Appliances)
    (t : ℚ) (s : SimState) : SimState :=
  let load := currentLoadAt t ap
  let cumulativeHouseConsumption := s.consumption + load * dt
  let solar := solarProduction exp t inverterCapacity
  let solarArr := s.solarArr ++ [solar]
  let netPower := solar - load
  if netPower ≥ 0 then
    let energyExcess := netPower * dt
    let availableCapacity := batteryCapacity - s.batteryEnergy
    let energyToBattery := min energyExcess availableCapacity
    let batteryEnergy := s.batteryEnergy + energyToBattery
    let energyExported := energyExcess - energyToBattery
    let cumulativeGridExport := s.gridExport + energyExported
    let batterySoC := batteryEnergy / batteryCapacity * 100
    { batteryEnergy := batteryEnergy
      gridImport := s.gridImport
      gridExport := cumulativeGridExport
      consumption := cumulativeHouseConsumption
      times := s.times ++ [t]
      socArr := s.socArr ++ [batterySoC]
      gridImportArr := s.gridImportArr ++ [s.gridImport]
      consumptionArr := s.consumptionArr ++ [cumulativeHouseConsumption]
      solarArr := solarArr }
  else
    let deficitEnergy := (-netPower) * dt
    let maxDischargeEnergy := 5 * dt
    let energyFromBattery := min deficitEnergy (min s.batteryEnergy maxDischargeEnergy)
    let batteryEnergy := s.batteryEnergy - energyFromBattery
    let energyShortfall := deficitEnergy - energyFromBattery
    let cumulativeGridImport := s.gridImport + energyShortfall
    let batterySoC := batteryEnergy / batteryCapacity * 100
    { batteryEnergy := batteryEnergy
      gridImport := cumulativeGridImport
      gridExport := s.gridExport
      consumption := cumulativeHouseConsumption
      times := s.times ++ [t]
      socArr := s.socArr ++ [batterySoC]
      gridImportArr := s.gridImportArr ++ [cumulativeGridImport]
      consumptionArr := s.consumptionArr ++ [cumulativeHouseConsumption]
      solarArr := solarArr }

/-- The loop `for (let t = 0; t <= 24; t += dt)` in exact arithmetic, as a
well-founded recursion on t.  This is the direct transliteration; simLoopF
below is the fuel-indexed unrolling used for computation, and
simLoopW_eq_simLoopF ties the two together. -/
def simLoopW (exp : ℚ → ℚ) (ic bc : ℚ) (ap : Appliances) (t : ℚ) (s : SimState) : SimState :=
  if t ≤ 24 then simLoopW exp ic bc ap (t + dt) (stepSim exp ic bc ap t s) else s
termination_by (⌈(24 - t) / dt⌉ + 1).toNat
decreasing_by
  have hdt : (0 : ℚ) < dt := by norm_num [dt]
  have h1 : (24 - (t + dt)) / dt = (24 - t) / dt - 1 := by
    field_simp
    ring
  have h2 : ⌈(24 - t) / dt - 1⌉ = ⌈(24 - t) / dt⌉ - 1 := Int.ceil_sub_one _
  have h3 : (0 : ℚ) ≤ (24 - t) / dt := div_nonneg (by linarith) hdt.le
  have h4 : (0 : ℤ) ≤ ⌈(24 - t) / dt⌉ := Int.ceil_nonneg h3
  rw [h1, h2]
  omega

/-- Fuel-indexed form of the loop; with fuel at least 242 it equals simLoopW
(lemma simLoopW_eq_simLoopF). -/
def simLoopF (exp : ℚ → ℚ) (ic bc : ℚ) (ap : Appliances) : ℕ → ℚ → SimState → SimState
  | 0, _, s => s
  | n + 1, t, s =>
    if t ≤ 24 then simLoopF exp ic bc ap n (t + dt) (stepSim exp ic bc ap t s) else s

/-- Initial state (App.js 467-478): battery starts full, accumulators zero,
series empty. -/
def initState (batteryCapacity : ℚ) : SimState :=
  { batteryEnergy := batteryCapacity
    gridImport := 0
    gridExport := 0
    consumption := 0
    times := []
    socArr := []
    gridImportArr := []
    consumptionArr := []
    solarArr := [] }

/-- The state after the full-day sweep. -/
def dayState (exp : ℚ → ℚ) (ic bc : ℚ) (ap : Appliances) : SimState :=
  simLoopF exp ic bc ap 242 0 (initState bc)

/-- JavaScript Math.round: round half toward positive infinity. -/
def roundJS (q : ℚ) : ℤ := ⌊q + 1 / 2⌋

/-- JavaScript array indexing arr[i]: undefined (none) outside bounds. -/
def listGetI (l : List ℚ) (i : ℤ) : Option ℚ :=
  if 0 ≤ i then l.get? i.toNat else none

/-- The object simulateDay returns (App.js 539-553).  The three fields read
from the recorded series through arr[currentIndex] can be undefined in the
source, hence Option. -/
structure SimResult where
  batterySoC : Option ℚ
  batteryEnergy : ℚ
  cumulativeGridImport : Option ℚ
  cumulativeGridExport : ℚ
  currentLoad : ℚ
  currentSolar : ℚ
  cumulativeHouseConsumption : Option ℚ
  times : List ℚ
  socArr : List ℚ
  gridImportArr : List ℚ
  consumptionArr : List ℚ
  solarArr : List ℚ
  currentIndex : ℤ

/-- simulateDay (App.js 466-554): full-day sweep, then the snapshot at the
index nearest the query time, with load and solar recomputed at the exact
query time. -/
def simulateDay (exp : ℚ → ℚ) (timeOfDay inverterCapacity batteryCapacity : ℚ)
    (appliancesState : Appliances) : SimResult :=
  let s := dayState exp inverterCapacity batteryCapacity appliancesState
  let currentIndex : ℤ := roundJS (timeOfDay / dt)
  let finalLoad := currentLoadAt timeOfDay appliancesState
  let finalSolar := solarProduction exp timeOfDay inverterCapacity
  { batterySoC := listGetI s.socArr currentIndex
    batteryEnergy := s.batteryEnergy
    cumulativeGridImport := listGetI s.gridImportArr currentIndex
    cumulativeGridExport := s.gridExport
    currentLoad := finalLoad
    currentSolar := finalSolar
    cumulativeHouseConsumption := listGetI s.consumptionArr currentIndex
    times := s.times
    socArr := s.socArr
    gridImportArr := s.gridImportArr
    consumptionArr := s.consumptionArr
    solarArr := s.solarArr
    currentIndex := currentIndex }

/-! ### Spec-side schedule predicate (design document 4.1)

Stated from the specification wording, to be compared with the code's
isApplianceRunning: an active window (both endpoints set) with off < on spans
midnight and matches when t ≥ on or t ≤ off; otherwise it matches when
on ≤ t ≤ off, inclusive on both ends. -/

def windowMatchesSpec (t : ℚ) (onS offS : String) : Prop :=
  onS ≠ "" ∧ offS ≠ "" ∧
    ∃ a b, timeToDecimal onS = some a ∧ timeToDecimal offS = some b ∧
      ((b < a ∧ (t ≥ a ∨ t ≤ b)) ∨ (¬b < a ∧ a ≤ t ∧ t ≤ b))

/-! ### Exact model of the IEEE-754 double time grid

The source loop head is `for (let t = 0; t <= 24; t += dt)` over doubles.
Every double is an exact rational; double addition is exact-sum followed by
rounding to 53 significant bits, nearest ties-to-even.  The functions below
implement that rounding on ℚ (magnitudes here are far from overflow and
subnormal range, so no clamping is needed), giving the exact sequence of time
samples the JavaScript loop records. -/

/-- 2^e as an exact rational, for integer e of either sign. -/
def pow2 (e : ℤ) : ℚ :=
  if 0 ≤ e then ((2 ^ e.toNat : ℕ) : ℚ) else 1 / ((2 ^ (-e).toNat : ℕ) : ℚ)

/-- Floor of log2 on naturals, by halving (64 halvings cover every value the
model meets). -/
def log2Go : ℕ → ℕ → ℕ
  | 0, _ => 0
  | fuel + 1, n => if n < 2 then 0 else log2Go fuel (n / 2) + 1

def log2Nat (n : ℕ) : ℕ := log2Go 64 n

/-- Floor of log2 of a positive rational: bit-length estimate plus a
correction step. -/
def log2floorQ (q : ℚ) : ℤ :=
  let e : ℤ := (log2Nat q.num.natAbs : ℤ) - (log2Nat q.den : ℤ)
  if pow2 (e + 1) ≤ q then e + 1 else if q < pow2 e then e - 1 else e

/-- Round to the nearest integer, ties to even. -/
def roundHalfEven (q : ℚ) : ℤ :=
  let n := ⌊q⌋
  let f := q - (n : ℚ)
  if f < 1 / 2 then n else if 1 / 2 < f then n + 1 else if n % 2 = 0 then n else n + 1

/-- Round an exact rational to the nearest IEEE-754 double (53-bit
significand, nearest ties-to-even). -/
def roundDouble (q : ℚ) : ℚ :=
  if q = 0 then 0
  else
    let a := if q < 0 then -q else q
    let e := log2floorQ a
    let r := (roundHalfEven (a * pow2 (52 - e)) : ℚ) * pow2 (e - 52)
    if q < 0 then -r else r

/-- The double nearest 0.1: the value the literal `dt = 0.1` denotes. -/
def dtDouble : ℚ := 3602879701896397 / 36028797018963968

/-- The times the JavaScript loop head records, in double arithmetic:
start at 0, record while t <= 24, then t += 0.1 with double rounding.
Fuel 300 exceeds the iteration count, so the guard, not the fuel, ends the
recursion (floatTimes_length below shows only 240 entries arise). -/
def floatTimesGo : ℕ → ℚ → List ℚ
  | 0, _ => []
  | n + 1, t => if t ≤ 24 then t :: floatTimesGo n (roundDouble (t + dtDouble)) else []

def floatTimes : List ℚ := floatTimesGo 300 0

/-! ### Fixtures used by concrete witnesses and counterexamples -/

/-- A concrete stand-in for Math.exp; claims hold for every exp, so any
computable function instantiates them. -/
def expOne : ℚ → ℚ := fun _ => 1

/-- All appliances disabled with unset schedules (the App's initial state). -/
def appliancesOff : Appliances := fun _ => ⟨false, DEFAULT_SCHEDULE⟩

/-- Loop-iteration times of the exact-arithmetic loop, used to characterise
the series lengths independently of the physics parameters. -/
def loopTimesF : ℕ → ℚ → List ℚ
  | 0, _ => []
  | n + 1, t => if t ≤ 24 then t :: loopTimesF n (t + dt) else []

/-! ### Infrastructure lemmas -/

/-- With enough fuel the fuel-indexed loop coincides with the direct
transliteration of the source loop. -/
theorem simLoopW_eq_simLoopF (exp : ℚ → ℚ) (ic bc : ℚ) (ap : Appliances) :
    ∀ (n : ℕ) (t : ℚ) (s : SimState), (⌈(24 - t) / dt⌉ + 1).toNat ≤ n →
      simLoopW exp ic bc ap t s = simLoopF exp ic bc ap n t s := by
  intro n
  induction n with
  | zero =>
    intro t s h
    have hdt : (0 : ℚ) < dt := by norm_num [dt]
    have ht : ¬t ≤ 24 := by
      intro hle
      have h3 : (0 : ℚ) ≤ (24 - t) / dt := div_nonneg (by linarith) hdt.le
      have h4 : (0 : ℤ) ≤ ⌈(24 - t) / dt⌉ := Int.ceil_nonneg h3
      omega
    rw [simLoopW, if_neg ht]
    rfl
  | succ n ih =>
    intro t s h
    rw [simLoopW]
    by_cases ht : t ≤ 24
    · rw [if_pos ht]
      show _ = simLoopF exp ic bc ap (n + 1) t s
      rw [show simLoopF exp ic bc ap (n + 1) t s
            = if t ≤ 24 then simLoopF exp ic bc ap n (t + dt) (stepSim exp ic bc ap t s) else s
          from rfl, if_pos ht]
      apply ih
      have hdt : (0 : ℚ) < dt := by norm_num [dt]
      have h1 : (24 - (t + dt)) / dt = (24 - t) / dt - 1 := by
        field_simp
        ring
      have h2 : ⌈(24 - t) / dt - 1⌉ = ⌈(24 - t) / dt⌉ - 1 := Int.ceil_sub_one _
      have h3 : (0 : ℚ) ≤ (24 - t) / dt := div_nonneg (by linarith) hdt.le
      have h4 : (0 : ℤ) ≤ ⌈(24 - t) / dt⌉ := Int.ceil_nonneg h3
      rw [h1, h2]
      omega
    · rw [if_neg ht]
      rw [show simLoopF exp ic bc ap (n + 1) t s
            = if t ≤ 24 then simLoopF exp ic bc ap n (t + dt) (stepSim exp ic bc ap t s) else s
          from rfl, if_neg ht]

/-- The computation entry point agrees with the transliterated source loop:
fuel 242 exceeds the 241 iterations the exact loop performs. -/
theorem dayState_eq_simLoopW (exp : ℚ → ℚ) (ic bc : ℚ) (ap : Appliances) :
    dayState exp ic bc ap = simLoopW exp ic bc ap 0 (initState bc) := by
  refine (simLoopW_eq_simLoopF exp ic bc ap 242 0 (initState bc) ?_).symm
  norm_num [dt]

/-- Each iteration appends exactly one sample to each recorded series. -/
theorem stepSim_shape (exp : ℚ → ℚ) (ic bc : ℚ) (ap : Appliances) (t : ℚ) (s : SimState) :
    (stepSim exp ic bc ap t s).times = s.times ++ [t] ∧
    (stepSim exp ic bc ap t s).socArr.length = s.socArr.length + 1 ∧
    (stepSim exp ic bc ap t s).gridImportArr.length = s.gridImportArr.length + 1 ∧
    (stepSim exp ic bc ap t s).consumptionArr.length = s.consumptionArr.length + 1 := by
  dsimp only [stepSim]
  split <;> simp

/-- The recorded times and series lengths depend only on the loop head, not
on the physics parameters. -/
theorem simLoopF_shape (exp : ℚ → ℚ) (ic bc : ℚ) (ap : Appliances) :
    ∀ (n : ℕ) (t : ℚ) (s : SimState),
      (simLoopF exp ic bc ap n t s).times = s.times ++ loopTimesF n t ∧
      (simLoopF exp ic bc ap n t s).socArr.length = s.socArr.length + (loopTimesF n t).length ∧
      (simLoopF exp ic bc ap n t s).gridImportArr.length
        = s.gridImportArr.length + (loopTimesF n t).length ∧
      (simLoopF exp ic bc ap n t s).consumptionArr.length
        = s.consumptionArr.length + (loopTimesF n t).length := by
  intro n
  induction n with
  | zero => intro t s; simp [simLoopF, loopTimesF]
  | succ n ih =>
    intro t s
    have hunf : simLoopF exp ic bc ap (n + 1) t s
        = if t ≤ 24 then simLoopF exp ic bc ap n (t + dt) (stepSim exp ic bc ap t s) else s := rfl
    have hlt : loopTimesF (n + 1) t = if t ≤ 24 then t :: loopTimesF n (t + dt) else [] := rfl
    by_cases ht : t ≤ 24
    · obtain ⟨ih1, ih2, ih3, ih4⟩ := ih (t + dt) (stepSim exp ic bc ap t s)
      obtain ⟨st1, st2, st3, st4⟩ := stepSim_shape exp ic bc ap t s
      rw [hunf, hlt, if_pos ht, if_pos ht]
      refine ⟨?_, ?_, ?_, ?_⟩
      · rw [ih1, st1]; simp
      · rw [ih2, st2]; simp; omega
      · rw [ih3, st3]; simp; omega
      · rw [ih4, st4]; simp; omega
    · rw [hunf, hlt, if_neg ht, if_neg ht]
      simp

/-- The exact-arithmetic loop performs 241 iterations. -/
theorem loopTimesF_242_length : (loopTimesF 242 0).length = 241 := by
  with_unfolding_all rfl

/-- Every run records exactly 241 samples in each series, regardless of the
configuration (the source performs no validation and no early exit). -/
theorem simulateDay_lengths (exp : ℚ → ℚ) (q ic bc : ℚ) (ap : Appliances) :
    (simulateDay exp q ic bc ap).times.length = 241 ∧
    (simulateDay exp q ic bc ap).socArr.length = 241 ∧
    (simulateDay exp q ic bc ap).gridImportArr.length = 241 ∧
    (simulateDay exp q ic bc ap).consumptionArr.length = 241 := by
  obtain ⟨h1, h2, h3, h4⟩ := simLoopF_shape exp ic bc ap 242 0 (initState bc)
  refine ⟨?_, ?_, ?_, ?_⟩ <;>
    simp [simulateDay, dayState, initState] at h1 h2 h3 h4 ⊢ <;>
    simp [h1, h2, h3, h4, loopTimesF_242_length]

/-- Any property preserved by one iteration is an invariant of the loop. -/
theorem simLoopF_inv (exp : ℚ → ℚ) (ic bc : ℚ) (ap : Appliances) (P : SimState → Prop)
    (hstep : ∀ t s, P s → P (stepSim exp ic bc ap t s)) :
    ∀ (n : ℕ) (t : ℚ) (s : SimState), P s → P (simLoopF exp ic bc ap n t s) := by
  intro n
  induction n with
  | zero => intro t s hs; exact hs
  | succ n ih =>
    intro t s hs
    show P (if t ≤ 24 then simLoopF exp ic bc ap n (t + dt) (stepSim exp ic bc ap t s) else s)
    by_cases ht : t ≤ 24
    · rw [if_pos ht]; exact ih (t + dt) _ (hstep t s hs)
    · rw [if_neg ht]; exact hs

/-- The load model as a closed sum of the fridge and the three catalog
appliances. -/
theorem currentLoadAt_eq (t : ℚ) (ap : Appliances) :
    currentLoadAt t ap = FRIDGE_LOAD
      + (if (ap .TV).enabled && isApplianceRunning t (ap .TV).schedule
          then APPLIANCE_LOADS .TV else 0)
      + (if (ap .Oven).enabled && isApplianceRunning t (ap .Oven).schedule
          then APPLIANCE_LOADS .Oven else 0)
      + (if (ap .Aircon).enabled && isApplianceRunning t (ap .Aircon).schedule
          then APPLIANCE_LOADS .Aircon else 0) := by
  simp only [currentLoadAt, List.foldl]
  split <;> split <;> split <;> ring

/-- The house load is never negative (the catalog powers are nonnegative
constants). -/
theorem currentLoadAt_nonneg (t : ℚ) (ap : Appliances) : 0 ≤ currentLoadAt t ap := by
  rw [currentLoadAt_eq]
  have h0 : (0 : ℚ) ≤ FRIDGE_LOAD := by norm_num [FRIDGE_LOAD]
  split <;> split <;> split <;> simp [APPLIANCE_LOADS, FRIDGE_LOAD] <;> norm_num

/-- Per-index monotonicity follows from sortedness of a recorded series. -/
theorem sorted_get?_mono (l : List ℚ) (hl : l.Sorted (· ≤ ·)) :
    ∀ i j a b, i ≤ j → l.get? i = some a → l.get? j = some b → a ≤ b := by
  intro i j a b hij ha hb
  obtain ⟨hja, hae⟩ := List.get?_eq_some.mp ha
  obtain ⟨hjb, hbe⟩ := List.get?_eq_some.mp hb
  rcases eq_or_lt_of_le hij with rfl | hlt
  · rw [ha] at hb
    cases hb
    exact le_refl _
  · subst hae
    subst hbe
    exact List.pairwise_iff_get.mp hl ⟨i, hja⟩ ⟨j, hjb⟩ hlt

/-- Out-of-range snapshot indices make every array-fed snapshot field
undefined: the source performs no clamping. -/
theorem simulateDay_snapshot_none (exp : ℚ → ℚ) (q ic bc : ℚ) (ap : Appliances)
    (h : roundJS (q / dt) < 0 ∨ 241 ≤ roundJS (q / dt)) :
    (simulateDay exp q ic bc ap).batterySoC = none ∧
    (simulateDay exp q ic bc ap).cumulativeGridImport = none ∧
    (simulateDay exp q ic bc ap).cumulativeHouseConsumption = none := by
  obtain ⟨-, h2, h3, h4⟩ := simulateDay_lengths exp q ic bc ap
  have hsoc : (simulateDay exp q ic bc ap).batterySoC
      = listGetI (simulateDay exp q ic bc ap).socArr (roundJS (q / dt)) := rfl
  have himp : (simulateDay exp q ic bc ap).cumulativeGridImport
      = listGetI (simulateDay exp q ic bc ap).gridImportArr (roundJS (q / dt)) := rfl
  have hcons : (simulateDay exp q ic bc ap).cumulativeHouseConsumption
      = listGetI (simulateDay exp q ic bc ap).consumptionArr (roundJS (q / dt)) := rfl
  rcases h with hneg | hbig
  · rw [hsoc, himp, hcons]
    unfold listGetI
    rw [if_neg (by omega), if_neg (by omega), if_neg (by omega)]
    exact ⟨rfl, rfl, rfl⟩
  · have hge : (0 : ℤ) ≤ roundJS (q / dt) := by omega
    have htn : 241 ≤ (roundJS (q / dt)).toNat := by omega
    rw [hsoc, himp, hcons]
    unfold listGetI
    rw [if_pos hge, if_pos hge, if_pos hge]
    refine ⟨List.get?_eq_none.mpr (by omega), List.get?_eq_none.mpr (by omega),
      List.get?_eq_none.mpr (by omega)⟩

/-! ### The claims -/

/-- Claim C2: at every integration step, energy balances exactly: the
consumption accumulator grows by load*dt, and solar*dt plus the energy drawn
from the battery (negative when storing) equals load*dt plus the step's
export increment minus its import increment.  Stated for every state, so it
holds at every step of every simulateDay run. -/
theorem claim_C2_step_energy_balance (exp : ℚ → ℚ) (ic bc : ℚ) (ap : Appliances)
    (t : ℚ) (s : SimState) :
    (stepSim exp ic bc ap t s).consumption - s.consumption = currentLoadAt t ap * dt ∧
    solarProduction exp t ic * dt + (s.batteryEnergy - (stepSim exp ic bc ap t s).batteryEnergy)
      = currentLoadAt t ap * dt
        + (((stepSim exp ic bc ap t s).gridExport - s.gridExport)
            - ((stepSim exp ic bc ap t s).gridImport - s.gridImport)) := by
  dsimp only [stepSim]
  split <;> exact ⟨by ring, by ring⟩

/-- Claim C4: solarProduction is exactly the Gaussian bell centred at hour
12.5 with standard deviation 2.5, scaled by the inverter capacity, for every
rational t (no sunrise/sunset clipping, no domain restriction). -/
theorem claim_C4_solar_gaussian (f : ℚ → ℚ) (t C : ℚ) :
    solarProduction f t C = C * f (-((t - 12.5) ^ 2) / (2 * (2.5 : ℚ) ^ 2)) := rfl

/-- Claim C5: the snapshot fields batterySoC, cumulative import and cumulative
consumption are the recorded series read at index round(queryTime/dt);
currentLoad and currentSolar are recomputed at the exact query time; the
cumulative export is the whole-day accumulator, not sliced to the index. -/
theorem claim_C5_snapshot_fields (exp : ℚ → ℚ) (q ic bc : ℚ) (ap : Appliances) :
    (simulateDay exp q ic bc ap).batterySoC
        = listGetI (simulateDay exp q ic bc ap).socArr (roundJS (q / dt)) ∧
    (simulateDay exp q ic bc ap).cumulativeGridImport
        = listGetI (simulateDay exp q ic bc ap).gridImportArr (roundJS (q / dt)) ∧
    (simulateDay exp q ic bc ap).cumulativeHouseConsumption
        = listGetI (simulateDay exp q ic bc ap).consumptionArr (roundJS (q / dt)) ∧
    (simulateDay exp q ic bc ap).currentLoad = currentLoadAt q ap ∧
    (simulateDay exp q ic bc ap).currentSolar = solarProduction exp q ic ∧
    (simulateDay exp q ic bc ap).cumulativeGridExport = (dayState exp ic bc ap).gridExport ∧
    (simulateDay exp q ic bc ap).currentIndex = roundJS (q / dt) :=
  ⟨rfl, rfl, rfl, rfl, rfl, rfl, rfl⟩

/-- Claim C6 (amended): the scalar batteryEnergy field is the end-of-day
battery energy left by the full sweep — the state of the transliterated
source loop — not the battery energy at the query-time index. -/
theorem claim_C6_battery_energy_end_of_day (exp : ℚ → ℚ) (q ic bc : ℚ) (ap : Appliances) :
    (simulateDay exp q ic bc ap).batteryEnergy = (dayState exp ic bc ap).batteryEnergy ∧
    (simulateDay exp q ic bc ap).batteryEnergy
      = (simLoopW exp ic bc ap 0 (initState bc)).batteryEnergy := by
  refine ⟨rfl, ?_⟩
  rw [show (simulateDay exp q ic bc ap).batteryEnergy = (dayState exp ic bc ap).batteryEnergy
      from rfl, dayState_eq_simLoopW]

/-- Claim C8 (amended): simulateDay performs no validation whatsoever — for
every configuration, including non-positive battery capacity, the integration
loop runs its full 241 exact-arithmetic steps and an ordinary result object is
returned; there is no failure channel. -/
theorem claim_C8_no_validation (exp : ℚ → ℚ) (q ic bc : ℚ) (ap : Appliances) :
    (simulateDay exp q ic bc ap).times.length = 241 ∧
    (simulateDay exp q ic bc ap).times ≠ [] := by
  obtain ⟨h1, -, -, -⟩ := simulateDay_lengths exp q ic bc ap
  refine ⟨h1, ?_⟩
  intro hnil
  rw [hnil] at h1
  simp at h1

/-- Claim C8 counterexample: with batteryCapacityKWh = 0 the loop still runs
all 241 steps — no validation failure is returned and the loop is entered. -/
theorem claim_C8_counterexample :
    (simulateDay expOne 12 5 0 appliancesOff).times.length = 241 ∧ (241 : ℕ) ≠ 0 := by
  obtain ⟨h1, -, -, -⟩ := simulateDay_lengths expOne 12 5 0 appliancesOff
  exact ⟨h1, by norm_num⟩

/-- Claim C1: for any configuration with positive battery capacity, every
recorded batterySoC lies in [0,100], and the corresponding stored energy
(SoC/100 times capacity) lies in [0, capacity]; the final battery energy obeys
the same bounds. -/
theorem claim_C1_soc_invariant (exp : ℚ → ℚ) (q ic bc : ℚ) (ap : Appliances)
    (hbc : 0 < bc) :
    (∀ x ∈ (simulateDay exp q ic bc ap).socArr, 0 ≤ x ∧ x ≤ 100) ∧
    (∀ x ∈ (simulateDay exp q ic bc ap).socArr, 0 ≤ x / 100 * bc ∧ x / 100 * bc ≤ bc) ∧
    0 ≤ (simulateDay exp q ic bc ap).batteryEnergy ∧
    (simulateDay exp q ic bc ap).batteryEnergy ≤ bc := by
  have hsoc : ∀ E : ℚ, 0 ≤ E → E ≤ bc → 0 ≤ E / bc * 100 ∧ E / bc * 100 ≤ 100 := by
    intro E h0 h1
    constructor
    · exact mul_nonneg (div_nonneg h0 hbc.le) (by norm_num)
    · have : E / bc ≤ 1 := (div_le_one hbc).mpr h1
      nlinarith
  have hinv := simLoopF_inv exp ic bc ap
    (fun s => (0 ≤ s.batteryEnergy ∧ s.batteryEnergy ≤ bc) ∧
      ∀ x ∈ s.socArr, 0 ≤ x ∧ x ≤ 100)
    (by
      intro t s hs
      obtain ⟨⟨hE0, hEc⟩, hall⟩ := hs
      have hdt : (0 : ℚ) ≤ dt := by norm_num [dt]
      dsimp only [stepSim]
      split
      · rename_i hnet
        have hmin1 : min ((solarProduction exp t ic - currentLoadAt t ap) * dt)
            (bc - s.batteryEnergy) ≤ bc - s.batteryEnergy := min_le_right _ _
        have hmin0 : 0 ≤ min ((solarProduction exp t ic - currentLoadAt t ap) * dt)
            (bc - s.batteryEnergy) :=
          le_min (mul_nonneg (by linarith [hnet]) hdt) (by linarith)
        refine ⟨⟨by linarith, by linarith⟩, ?_⟩
        intro x hx
        rcases List.mem_append.mp hx with hx | hx
        · exact hall x hx
        · rcases List.mem_singleton.mp hx with rfl
          exact hsoc _ (by linarith) (by linarith)
      · rename_i hnet
        have hmin1 : min ((-(solarProduction exp t ic - currentLoadAt t ap)) * dt)
            (min s.batteryEnergy (5 * dt)) ≤ s.batteryEnergy :=
          le_trans (min_le_right _ _) (min_le_left _ _)
        have hneg : solarProduction exp t ic - currentLoadAt t ap < 0 := by
          by_contra hc
          exact hnet (by linarith)
        have hmin0 : 0 ≤ min ((-(solarProduction exp t ic - currentLoadAt t ap)) * dt)
            (min s.batteryEnergy (5 * dt)) :=
          le_min (mul_nonneg (by linarith) hdt) (le_min hE0 (by norm_num [dt]))
        refine ⟨⟨by linarith, by linarith⟩, ?_⟩
        intro x hx
        rcases List.mem_append.mp hx with hx | hx
        · exact hall x hx
        · rcases List.mem_singleton.mp hx with rfl
          exact hsoc _ (by linarith) (by linarith))
    242 0 (initState bc)
    (by
      refine ⟨⟨hbc.le, le_refl bc⟩, ?_⟩
      intro x hx
      simp [initState] at hx)
  obtain ⟨⟨hE0, hEc⟩, hall⟩ := hinv
  have harr : (simulateDay exp q ic bc ap).socArr = (dayState exp ic bc ap).socArr := rfl
  have hbe : (simulateDay exp q ic bc ap).batteryEnergy
      = (dayState exp ic bc ap).batteryEnergy := rfl
  refine ⟨?_, ?_, ?_, ?_⟩
  · intro x hx
    rw [harr] at hx
    exact hall x hx
  · intro x hx
    rw [harr] at hx
    obtain ⟨h0, h1⟩ := hall x hx
    constructor
    · exact mul_nonneg (div_nonneg h0 (by norm_num)) hbc.le
    · have hx1 : x / 100 ≤ 1 := by linarith [(div_le_one (show (0:ℚ) < 100 by norm_num)).mpr h1]
      nlinarith
  · rw [hbe]
    exact hE0
  · rw [hbe]
    exact hEc

/-- Claim C1 witness: a concrete positive-capacity run. -/
theorem claim_C1_soc_invariant_witness :
    (0 : ℚ) < 10 ∧
    (∀ x ∈ (simulateDay expOne 0 0 10 appliancesOff).socArr, 0 ≤ x ∧ x ≤ 100) :=
  ⟨by norm_num, (claim_C1_soc_invariant expOne 0 0 10 appliancesOff (by norm_num)).1⟩

/-- Claim C10: within one run the recorded cumulative series are monotone
non-decreasing under the index order, and the grid-export accumulator never
decreases across a step. -/
theorem claim_C10_cumulative_monotone (exp : ℚ → ℚ) (q ic bc : ℚ) (ap : Appliances) :
    (∀ i j a b, i ≤ j → (simulateDay exp q ic bc ap).gridImportArr.get? i = some a →
        (simulateDay exp q ic bc ap).gridImportArr.get? j = some b → a ≤ b) ∧
    (∀ i j a b, i ≤ j → (simulateDay exp q ic bc ap).consumptionArr.get? i = some a →
        (simulateDay exp q ic bc ap).consumptionArr.get? j = some b → a ≤ b) ∧
    (∀ (t : ℚ) (s : SimState), s.gridExport ≤ (stepSim exp ic bc ap t s).gridExport) := by
  have hdt : (0 : ℚ) ≤ dt := by norm_num [dt]
  have hinv := simLoopF_inv exp ic bc ap
    (fun s => (s.gridImportArr.Sorted (· ≤ ·) ∧ ∀ y ∈ s.gridImportArr, y ≤ s.gridImport) ∧
      (s.consumptionArr.Sorted (· ≤ ·) ∧ ∀ y ∈ s.consumptionArr, y ≤ s.consumption))
    (by
      intro t s hs
      obtain ⟨⟨his, hib⟩, hcs, hcb⟩ := hs
      have hload : 0 ≤ currentLoadAt t ap := currentLoadAt_nonneg t ap
      have hcons : s.consumption ≤ s.consumption + currentLoadAt t ap * dt := by
        nlinarith
      dsimp only [stepSim]
      split
      · refine ⟨⟨?_, ?_⟩, ?_, ?_⟩
        · exact List.pairwise_append.mpr ⟨his, List.sorted_singleton _,
            fun a ha b hb => by rcases List.mem_singleton.mp hb with rfl; exact hib a ha⟩
        · intro y hy
          rcases List.mem_append.mp hy with hy | hy
          · exact hib y hy
          · rcases List.mem_singleton.mp hy with rfl
            exact le_refl _
        · exact List.pairwise_append.mpr ⟨hcs, List.sorted_singleton _,
            fun a ha b hb => by
              rcases List.mem_singleton.mp hb with rfl
              exact le_trans (hcb a ha) hcons⟩
        · intro y hy
          rcases List.mem_append.mp hy with hy | hy
          · exact le_trans (hcb y hy) hcons
          · rcases List.mem_singleton.mp hy with rfl
            exact le_refl _
      · rename_i hnet
        have hneg : solarProduction exp t ic - currentLoadAt t ap < 0 := by
          by_contra hc
          exact hnet (by linarith)
        have hshort : 0 ≤ (-(solarProduction exp t ic - currentLoadAt t ap)) * dt
            - min ((-(solarProduction exp t ic - currentLoadAt t ap)) * dt)
              (min s.batteryEnergy (5 * dt)) := by
          have := min_le_left ((-(solarProduction exp t ic - currentLoadAt t ap)) * dt)
            (min s.batteryEnergy (5 * dt))
          linarith
        have himp : s.gridImport ≤ s.gridImport
            + ((-(solarProduction exp t ic - currentLoadAt t ap)) * dt
              - min ((-(solarProduction exp t ic - currentLoadAt t ap)) * dt)
                (min s.batteryEnergy (5 * dt))) := by linarith
        refine ⟨⟨?_, ?_⟩, ?_, ?_⟩
        · exact List.pairwise_append.mpr ⟨his, List.sorted_singleton _,
            fun a ha b hb => by
              rcases List.mem_singleton.mp hb with rfl
              exact le_trans (hib a ha) himp⟩
        · intro y hy
          rcases List.mem_append.mp hy with hy | hy
          · exact le_trans (hib y hy) himp
          · rcases List.mem_singleton.mp hy with rfl
            exact le_refl _
        · exact List.pairwise_append.mpr ⟨hcs, List.sorted_singleton _,
            fun a ha b hb => by
              rcases List.mem_singleton.mp hb with rfl
              exact le_trans (hcb a ha) hcons⟩
        · intro y hy
          rcases List.mem_append.mp hy with hy | hy
          · exact le_trans (hcb y hy) hcons
          · rcases List.mem_singleton.mp hy with rfl
            exact le_refl _)
    242 0 (initState bc)
    (by
      refine ⟨⟨?_, ?_⟩, ?_, ?_⟩ <;> simp [initState])
  obtain ⟨⟨his, -⟩, hcs, -⟩ := hinv
  refine ⟨?_, ?_, ?_⟩
  · exact sorted_get?_mono _ his
  · exact sorted_get?_mono _ hcs
  · intro t s
    dsimp only [stepSim]
    split
    · rename_i hnet
      have hmin : min ((solarProduction exp t ic - currentLoadAt t ap) * dt)
          (bc - s.batteryEnergy) ≤ (solarProduction exp t ic - currentLoadAt t ap) * dt :=
        min_le_left _ _
      simp only
      linarith
    · simp only
      exact le_refl _

/-- Claim C9 (amended): the snapshot index round(queryTime/dt) is used with
no clamping; whenever it falls outside the recorded range 0..240 the
array-fed snapshot fields are undefined (none) — the out-of-range branch of
the indexing is reachable, not unreachable. -/
theorem claim_C9_no_clamping (exp : ℚ → ℚ) (q ic bc : ℚ) (ap : Appliances)
    (h : roundJS (q / dt) < 0 ∨ 241 ≤ roundJS (q / dt)) :
    (simulateDay exp q ic bc ap).batterySoC = none ∧
    (simulateDay exp q ic bc ap).cumulativeGridImport = none ∧
    (simulateDay exp q ic bc ap).cumulativeHouseConsumption = none :=
  simulateDay_snapshot_none exp q ic bc ap h

/-- Claim C9 witness: the query time 25 lies outside [0,24] and yields index
250, past the 241 recorded samples, so the snapshot fields are undefined. -/
theorem claim_C9_no_clamping_witness :
    (roundJS (25 / dt) < 0 ∨ 241 ≤ roundJS (25 / dt)) ∧
    (simulateDay expOne 25 0 10 appliancesOff).batterySoC = none :=
  ⟨by with_unfolding_all decide,
    (claim_C9_no_clamping expOne 25 0 10 appliancesOff (by with_unfolding_all decide)).1⟩

/-- Claim C9 counterexample: at query time 25 the claimed clamp to the last
index does not happen: the batterySoC snapshot is undefined (none), even
though the boundary entry the claim says would be used does exist. -/
theorem claim_C9_counterexample :
    (simulateDay expOne 25 0 10 appliancesOff).batterySoC = none ∧
    (listGetI (simulateDay expOne 25 0 10 appliancesOff).socArr 240).isSome = true := by
  constructor
  · exact (simulateDay_snapshot_none expOne 25 0 10 appliancesOff
      (by with_unfolding_all decide)).1
  · obtain ⟨-, h2, -, -⟩ := simulateDay_lengths expOne 25 0 10 appliancesOff
    unfold listGetI
    rw [if_pos (by norm_num)]
    rw [List.get?_eq_get (by omega : (240 : ℤ).toNat < (simulateDay expOne 25 0 10 appliancesOff).socArr.length)]
    rfl

/-- A single window of the code predicate agrees with the spec reading of a
window. -/
theorem slotMatches_iff (t : ℚ) (x y : String) :
    slotMatches t x y = true ↔ windowMatchesSpec t x y := by
  unfold slotMatches windowMatchesSpec
  by_cases hx : x = ""
  · simp [hx]
  by_cases hy : y = ""
  · simp [hx, hy]
  simp only [hx, hy, decide_eq_false_iff_not, ne_eq, not_false_eq_true, true_and]
  rw [if_neg (by simp [hx, hy])]
  cases htx : timeToDecimal x with
  | none => simp [htx]
  | some a =>
    cases hty : timeToDecimal y with
    | none => simp [htx, hty]
    | some b =>
      simp only [htx, hty, Option.some.injEq]
      constructor
      · intro h
        refine ⟨a, b, rfl, rfl, ?_⟩
        by_cases hba : b < a
        · rw [if_pos hba] at h
          rcases Bool.or_eq_true _ _ |>.mp h with h | h
          · exact Or.inl ⟨hba, Or.inl (of_decide_eq_true h)⟩
          · exact Or.inl ⟨hba, Or.inr (of_decide_eq_true h)⟩
        · rw [if_neg hba] at h
          obtain ⟨h1, h2⟩ := Bool.and_eq_true _ _ |>.mp h
          exact Or.inr ⟨hba, of_decide_eq_true h1, of_decide_eq_true h2⟩
      · rintro ⟨a', b', ha', hb', hcase⟩
        cases ha'
        cases hb'
        rcases hcase with ⟨hba, hor⟩ | ⟨hba, h1, h2⟩
        · rw [if_pos hba]
          rcases hor with h | h
          · exact Bool.or_eq_true _ _ |>.mpr (Or.inl (decide_eq_true h))
          · exact Bool.or_eq_true _ _ |>.mpr (Or.inr (decide_eq_true h))
        · rw [if_neg hba]
          exact Bool.and_eq_true _ _ |>.mpr ⟨decide_eq_true h1, decide_eq_true h2⟩

/-- If the early both-windows-unset exit fires, each window is individually
inactive, so the predicate is the plain disjunction of the two windows. -/
theorem isApplianceRunning_eq_slots (t : ℚ) (s : Schedule) :
    isApplianceRunning t s
      = (slotMatches t s.on1 s.off1 || slotMatches t s.on2 s.off2) := by
  unfold isApplianceRunning
  split
  · rename_i h
    have h' := Bool.and_eq_true _ _ |>.mp h
    obtain ⟨h1, h2⟩ := h'
    have e1 : slotMatches t s.on1 s.off1 = false := by
      unfold slotMatches
      rw [if_pos h1]
    have e2 : slotMatches t s.on2 s.off2 = false := by
      unfold slotMatches
      rw [if_pos h2]
    rw [e1, e2]
    rfl
  · rfl

/-- Claim C3: isApplianceRunning is exactly the spec predicate — true iff the
time lies in window 1 or window 2, where a set window with off < on spans
midnight (t ≥ on or t ≤ off) and otherwise matches inclusively
(on ≤ t ≤ off) — together with the named concrete cases: the 22:00-02:00
window runs at 23.5 and at 1.0 but not at 10.0, and the 09:00-17:00 window
runs at exactly 9.0 and exactly 17.0. -/
theorem claim_C3_schedule_predicate :
    (∀ (t : ℚ) (s : Schedule), isApplianceRunning t s = true ↔
        (windowMatchesSpec t s.on1 s.off1 ∨ windowMatchesSpec t s.on2 s.off2)) ∧
    isApplianceRunning 23.5 ⟨"22:00", "02:00", "", ""⟩ = true ∧
    isApplianceRunning 1 ⟨"22:00", "02:00", "", ""⟩ = true ∧
    isApplianceRunning 10 ⟨"22:00", "02:00", "", ""⟩ = false ∧
    isApplianceRunning 9 ⟨"09:00", "17:00", "", ""⟩ = true ∧
    isApplianceRunning 17 ⟨"09:00", "17:00", "", ""⟩ = true := by
  refine ⟨?_, ?_, ?_, ?_, ?_, ?_⟩
  · intro t s
    rw [isApplianceRunning_eq_slots]
    rw [Bool.or_eq_true]
    rw [slotMatches_iff, slotMatches_iff]
  · with_unfolding_all rfl
  · with_unfolding_all rfl
  · with_unfolding_all rfl
  · with_unfolding_all rfl
  · with_unfolding_all rfl

/-- Claim C6 counterexample: inverter 0 kW, battery 5 kWh, no appliances,
query time 0.  The recorded SoC at the query index is 99.8 (stored energy
4.99 kWh), but the returned batteryEnergy is the end-of-day 2.59 kWh — the
field is not evaluated at the query time. -/
theorem claim_C6_counterexample :
    (simulateDay expOne 0 0 5 appliancesOff).batterySoC = some (499 / 5) ∧
    (simulateDay expOne 0 0 5 appliancesOff).batteryEnergy = 259 / 100 ∧
    (259 / 100 : ℚ) ≠ 499 / 5 / 100 * 5 := by
  refine ⟨?_, ?_, by norm_num⟩
  · with_unfolding_all rfl
  · with_unfolding_all rfl

/-- Claim C7: in the double arithmetic the source actually runs, the loop
head `for (let t = 0; t <= 24; t += 0.1)` records only 240 time samples, not
241: accumulated rounding makes the 240th value 24.00000000000007 > 24, so
the guard stops one step early, the last recorded time is
23.90000000000007 (exactly 3363625971692349/140737488355328), and the value
24 is never recorded.  (In exact arithmetic the same loop would record the
claimed 241 samples 0, 0.1, ..., 24 — loopTimesF_242_length.) -/
theorem claim_C7_float_time_grid :
    floatTimes.length = 240 ∧
    floatTimes.length ≠ 241 ∧
    floatTimes.getLast? = some (3363625971692349 / 140737488355328) ∧
    (∀ x ∈ floatTimes, x ≠ 24) := by
  have hlen : floatTimes.length = 240 := by with_unfolding_all rfl
  have hall : floatTimes.all (fun x => decide (x ≠ 24)) = true := by with_unfolding_all rfl
  refine ⟨hlen, by omega, by with_unfolding_all rfl, ?_⟩
  intro x hx
  have := List.all_eq_true.mp hall x hx
  exact of_decide_eq_true this

/-- Claim C10 witness: a concrete run and index pair, hypotheses discharged
by evaluation. -/
theorem claim_C10_cumulative_monotone_witness :
    (0 : ℕ) ≤ 1 ∧
    (simulateDay expOne 0 0 10 appliancesOff).gridImportArr.get? 0 = some 0 ∧
    (simulateDay expOne 0 0 10 appliancesOff).gridImportArr.get? 1 = some 0 ∧
    (0 : ℚ) ≤ 0 :=
  ⟨by norm_num,
    by with_unfolding_all rfl,
    by with_unfolding_all rfl,
    (claim_C10_cumulative_monotone expOne 0 0 10 appliancesOff).1 0 1 0 0
      (by norm_num) (by with_unfolding_all rfl) (by with_unfolding_all rfl)⟩

end SolarSim
